import Mathlib

/-!
Shallow embedding of `src/schedule_builder.py` (class `ScheduleBuilder`).

Python strings are embedded as Lean `String`, Python dicts as insertion-ordered
association lists with unique keys, `datetime` instants as minutes since the
reference instant 2000-01-01 00:00 (a `Nat`), and fallible paths (Python
exceptions raised by `int(...)`, the `datetime` constructor, or the explicit
`raise ValueError`) as `Option` / `Except`.
-/

namespace ScheduleBuilder

/-- One entry of the `self.groups` dict: the per-group record built by
`add_group` (`hierarchy`, `leaf_name`, `activities`, `locations`). The
`activities` dict is an insertion-ordered association list from time-slot
label to activity text. -/
structure GroupData where
  hierarchy : List String
  leaf_name : String
  activities : List (String × String)
  locations : List String
deriving DecidableEq

/-- The mutable state of a `ScheduleBuilder` instance: `self.time_slots`,
`self.groups` (insertion-ordered dict as an association list with unique
keys), and the unused `self.schedule_data` field set in `__init__`. -/
structure BState where
  time_slots : List String
  groups : List (String × GroupData)
  schedule_data : List (List String)
deriving DecidableEq

/-- `ScheduleBuilder.__init__`: all three fields empty. -/
def initState : BState := ⟨[], [], []⟩

/-- Python dict assignment `d[k] = v` on an association list: update the value
in place if the key exists (keeping its position, as CPython dicts do),
otherwise append the new binding at the end. -/
def setAssoc {κ α : Type} [DecidableEq κ] : List (κ × α) → κ → α → List (κ × α)
  | [], k, v => [(k, v)]
  | (k1, v1) :: rest, k, v =>
      if k1 = k then (k1, v) :: rest else (k1, v1) :: setAssoc rest k v

/-- In-place update of an existing dict entry (`self.groups[name][...] = ...`):
apply `f` to the value stored under the first occurrence of key `k`. -/
def update_group (l : List (String × GroupData)) (k : String) (f : GroupData → GroupData) :
    List (String × GroupData) :=
  match l with
  | [] => []
  | (k1, v) :: rest =>
      if k1 = k then (k1, f v) :: rest else (k1, v) :: update_group rest k f

/-- Python `str.split(" - ")` on the character list: split at every
non-overlapping, leftmost occurrence of the three-character separator
space-dash-space. The accumulator holds the current part reversed. -/
def split_sep (acc : List Char) : List Char → List (List Char)
  | ' ' :: '-' :: ' ' :: rest => acc.reverse :: split_sep [] rest
  | c :: rest => split_sep (c :: acc) rest
  | [] => [acc.reverse]

/-- Python `str.strip()`: drop whitespace from both ends. -/
def trim_chars (l : List Char) : List Char :=
  ((l.dropWhile Char.isWhitespace).reverse.dropWhile Char.isWhitespace).reverse

/-- `ScheduleBuilder.parse_hierarchy`: if the name contains `" - "` (i.e. the
split yields more than one part), strip each part and return
(all parts but the last, last part); otherwise `([], name)`. -/
def parse_hierarchy (group_name : String) : List String × String :=
  let raw := split_sep [] group_name.data
  if raw.length > 1 then
    let parts := raw.map (fun p => String.mk (trim_chars p))
    (parts.dropLast, parts.getLastD "")
  else ([], group_name)

/-- Python `int(s)` restricted to the digit strings the time parser feeds it:
`some` of the decimal value of a non-empty all-digit string, `none` (the
`ValueError` path) otherwise. -/
def digits_to_nat (l : List Char) : Option Nat :=
  if l ≠ [] ∧ l.all Char.isDigit then
    some (l.foldl (fun n c => n * 10 + (c.toNat - '0'.toNat)) 0)
  else none

/-- Two-digit zero-padded decimal rendering, as `strftime("%H")`/`("%M")`
produce for the hour/minute fields (both always below 100). -/
def pad2 (n : Nat) : String :=
  if n < 10 then "0" ++ Nat.repr n else Nat.repr n

/-- The label emitted for the running instant `current` (minutes since the
reference instant) in the loop of `generate_time_slots`:
`strftime("%H%M")` of the instant's time of day, rewritten to `"2400"` when
it is exactly midnight and strictly later than the start instant. -/
def format_slot (start_dt current : Nat) : String :=
  let t := current % 1440
  let time_str := pad2 (t / 60) ++ pad2 (t % 60)
  if time_str = "0000" ∧ start_dt < current then "2400" else time_str

/-- The `while current <= end_dt` emission loop of `generate_time_slots`.
The extra `fuel` argument only bounds the recursion depth; `emit_slots_eq`
shows that the fuel `generate_time_slots` supplies is never exhausted when
the interval is at least one minute, so the value agrees with the Python
loop there. (For interval `0` the Python loop diverges; see the
termination theorems.) -/
def emit_slots (start_dt intv end_dt : Nat) : Nat → Nat → List String
  | 0, _ => []
  | fuel + 1, current =>
      if current ≤ end_dt then
        format_slot start_dt current :: emit_slots start_dt intv end_dt fuel (current + intv)
      else []

/-- The parsing-and-rollover stage of `generate_time_slots`: parse the two
`"HHMM"` strings (end `"2400"` is special-cased to 23:59 before parsing),
validate hour/minute ranges as the `datetime` constructor does, and add one
day to the end instant when it is `≤` the start instant or the literal end
string is `"2400"`. Returns the pair (start instant, end instant) in
minutes, or `none` on any of the Python exception paths. -/
def axis_bounds (start_time end_time : String) : Option (Nat × Nat) :=
  match digits_to_nat (start_time.data.take 2), digits_to_nat (start_time.data.drop 2) with
  | some sh, some sm =>
    let em? : Option (Nat × Nat) :=
      if end_time = "2400" then some (23, 59)
      else
        match digits_to_nat (end_time.data.take 2), digits_to_nat (end_time.data.drop 2) with
        | some eh, some em1 => some (eh, em1)
        | _, _ => none
    match em? with
    | some (eh, em1) =>
      if sh ≤ 23 ∧ sm ≤ 59 ∧ eh ≤ 23 ∧ em1 ≤ 59 then
        let start_dt := sh * 60 + sm
        let e0 := eh * 60 + em1
        some (start_dt, if e0 ≤ start_dt ∨ end_time = "2400" then e0 + 1440 else e0)
      else none
    | none => none
  | _, _ => none

/-- `ScheduleBuilder.generate_time_slots`: compute the axis bounds, then run
the emission loop from the start instant. The fuel `end_dt + 2` strictly
exceeds the number of loop iterations whenever the interval is positive. -/
def generate_time_slots (start_time end_time : String) (interval_minutes : Nat) :
    Option (List String) :=
  match axis_bounds start_time end_time with
  | some (start_dt, end_dt) =>
      some (emit_slots start_dt interval_minutes end_dt (end_dt + 2) start_dt)
  | none => none

/-- `ScheduleBuilder.add_group`: parse the hierarchy, and insert a fresh
group record only when the name is not yet a key of `self.groups`
(dict insertion appends at the end); otherwise the call leaves the state
unchanged. `none` arguments model Python's `None` defaults; `activities or
{}` / `locations or []` becomes `Option.getD` of the empty container. -/
def add_group (s : BState) (group_name : String)
    (activities : Option (List (String × String))) (locations : Option (List String)) :
    BState :=
  let hl := parse_hierarchy group_name
  if List.lookup group_name s.groups = none then
    { s with groups := s.groups ++
        [(group_name,
          { hierarchy := hl.1, leaf_name := hl.2,
            activities := activities.getD [], locations := locations.getD [] })] }
  else s

/-- `ScheduleBuilder.set_time_period`: `self.time_slots = generate_time_slots(...)`.
On the exception paths of `generate_time_slots` the assignment never
happens, so the state is unchanged. -/
def set_time_period (s : BState) (start_time end_time : String) (interval_minutes : Nat) :
    BState :=
  match generate_time_slots start_time end_time interval_minutes with
  | some ts => { s with time_slots := ts }
  | none => s

/-- `ScheduleBuilder.add_activity`: create the group via `add_group` if
absent, set `activities[time_slot] = activity` (last write wins), and append
the location when it is non-empty and not already present. -/
def add_activity (s : BState) (group_name time_slot activity location : String) : BState :=
  let s1 := if List.lookup group_name s.groups = none
    then add_group s group_name none none else s
  { s1 with groups := update_group s1.groups group_name (fun gd =>
      let gd1 := { gd with activities := setAssoc gd.activities time_slot activity }
      if location ≠ "" ∧ location ∉ gd1.locations then
        { gd1 with locations := gd1.locations ++ [location] }
      else gd1) }

/-- The hierarchy key of `build_schedule_structure`: `(group_name,)` for a
group with empty hierarchy, `tuple(hierarchy + [leaf_name])` otherwise. -/
def group_key (group_name : String) (gd : GroupData) : List String :=
  if gd.hierarchy = [] then [group_name] else gd.hierarchy ++ [gd.leaf_name]

/-- The `hierarchy_groups` dict of `build_schedule_structure`: iterate over
the groups in insertion order assigning `hierarchy_groups[key] = group_data`
(later groups with an equal key overwrite the stored record). -/
def hg_fold (acc : List (List String × GroupData)) :
    List (String × GroupData) → List (List String × GroupData)
  | [] => acc
  | (name, gd) :: rest => hg_fold (setAssoc acc (group_key name gd) gd) rest

/-- Python string `<` on the underlying code points. -/
def strLt : List Char → List Char → Bool
  | [], [] => false
  | [], _ :: _ => true
  | _ :: _, [] => false
  | c :: cs, d :: ds =>
      if c.toNat < d.toNat then true
      else if d.toNat < c.toNat then false
      else strLt cs ds

/-- Python tuple `≤` on tuples of strings (lexicographic; a proper prefix
sorts first). Together with a stable sort this reproduces
`sorted(hierarchy_groups.items())`, whose keys are unique dict keys. -/
def keyLe : List String → List String → Bool
  | [], _ => true
  | _ :: _, [] => false
  | a :: as1, b :: bs =>
      if strLt a.data b.data then true
      else if strLt b.data a.data then false
      else keyLe as1 bs

/-- Python `", ".join(locations)`. -/
def join_comma : List String → String
  | [] => ""
  | [x] => x
  | x :: xs => x ++ ", " ++ join_comma xs

/-- The depth-dependent three-cell row start of `build_schedule_structure`,
together with the updated `current_top_level` / `current_second_level`
running state (Python's `None` is `none`). Depths other than 1, 2, 3 fall
into the `else` branch: three cells `["", "", leaf]`, state untouched. -/
def row_start (curTop curSec : Option String) (key : List String) (leaf : String) :
    (String × String × String) × Option String × Option String :=
  match key with
  | [k0] => ((k0, "", ""), some k0, none)
  | [k0, k1] =>
      ((if curTop = some k0 then "" else k0, k1, ""), some k0, some k1)
  | [k0, k1, k2] =>
      ((if curTop = some k0 then "" else k0,
        if curSec = some k1 then "" else k1, k2), some k0, some k1)
  | _ => (("", "", leaf), curTop, curSec)

/-- The per-group loop of `build_schedule_structure` over the sorted
`hierarchy_groups` items: render the three-cell row start, merge the
location annotation into the third cell, then append one activity cell per
configured time slot (`activities.get(time_slot, "")`). -/
def render_rows (time_slots : List String) :
    Option String → Option String → List (List String × GroupData) → List (List String)
  | _, _, [] => []
  | curTop, curSec, (key, gd) :: rest =>
      let st := row_start curTop curSec key gd.leaf_name
      let c2 :=
        if gd.locations ≠ [] then
          if st.1.2.2 ≠ "" then st.1.2.2 ++ " (" ++ join_comma gd.locations ++ ")"
          else "(" ++ join_comma gd.locations ++ ")"
        else st.1.2.2
      ([st.1.1, st.1.2.1, c2] ++
          time_slots.map (fun ts => (List.lookup ts gd.activities).getD ""))
        :: render_rows time_slots st.2.1 st.2.2 rest

/-- The sorted `hierarchy_groups.items()` of `build_schedule_structure`:
a stable sort by key, as Python's `sorted` performs (the keys are unique,
so the value components are never compared). -/
def sorted_groups (groups : List (String × GroupData)) :
    List (List String × GroupData) :=
  List.insertionSort (fun p q => keyLe p.1 q.1 = true) (hg_fold [] groups)

/-- `ScheduleBuilder.build_schedule_structure`, modelled as a state
transformer: the result (the `raise ValueError` path as `Except.error`,
otherwise the built table) paired with the instance state after the call.
The method body assigns to no field of `self`, so the state component is
the input state. -/
def build_schedule_structure (s : BState) :
    Except String (List (List String)) × BState :=
  (if s.time_slots = [] then
    Except.error "Time period must be set before building schedule"
  else
    let header := ["", "", ""] ++ s.time_slots
    let blank := ["", "", ""] ++ List.replicate s.time_slots.length ""
    Except.ok ([header, blank] ++
      render_rows s.time_slots none none (sorted_groups s.groups)), s)

/-- The caller-visible operations that mutate a `ScheduleBuilder`. -/
inductive Op where
  | addGroup (name : String) (acts : Option (List (String × String)))
      (locs : Option (List String))
  | addActivity (name time_slot activity location : String)
  | setTimePeriod (start_time end_time : String) (interval_minutes : Nat)
deriving DecidableEq

/-- Interpret one operation on the instance state. -/
def applyOp (s : BState) : Op → BState
  | .addGroup n a l => add_group s n a l
  | .addActivity n t a l => add_activity s n t a l
  | .setTimePeriod st et i => set_time_period s st et i

/-- Run a call sequence from a given state; the states reachable from
`initState` are exactly `runOps initState ops`. -/
def runOps (s : BState) (ops : List Op) : BState := ops.foldl applyOp s

/-- The invariant claimed by the spec for the location lists: every group's
`locations` entry in the store is duplicate-free. -/
def locations_nodup (s : BState) : Prop :=
  ∀ p ∈ s.groups, p.2.locations.Nodup

/-- Whether an operation supplies a duplicate-free `locations` argument to
`add_group` (operations that pass no location list trivially qualify). -/
def op_locs_nodup : Op → Bool
  | .addGroup _ _ (some l) => decide l.Nodup
  | _ => true

/-- The integer value `start_dt + k * interval_minutes` that the running
instant would hold after `k` loop iterations (Python integer arithmetic is
unbounded); whether a `datetime` can actually hold that value is a separate
question, captured by `step_ok`. -/
def currentAt (start_dt intv : Int) (k : Nat) : Int := start_dt + k * intv

/-- `datetime.min` (0001-01-01 00:00) in minutes relative to the reference
instant 2000-01-01 00:00: 730119 days before it. -/
def DT_MIN : Int := -(730119 * 1440)

/-- The largest whole-minute instant a Python `datetime` can hold,
9999-12-31 23:59 (the loop's instants always have zero seconds), in minutes
relative to 2000-01-01 00:00: 2921939 days and 1439 minutes after it. -/
def DT_MAX : Int := 2921939 * 1440 + 1439

/-- The statement `current += timedelta(minutes=interval_minutes)` succeeds
from instant `c` iff the new instant is representable; otherwise Python
raises `OverflowError` (either at the addition, or already at the
`timedelta` constructor for intervals beyond its ±999999999-day bound — in
which case the sum is out of datetime range as well, so the disjunction of
the two error conditions is exactly this window check). -/
def step_ok (intv c : Int) : Prop := DT_MIN ≤ c + intv ∧ c + intv ≤ DT_MAX

/-- The emission loop completes its first `k` iterations: at every iterate
`j < k` the `current <= end_dt` guard holds and the increment stays inside
the datetime range. -/
def loop_reaches (start_dt end_dt intv : Int) (k : Nat) : Prop :=
  ∀ j < k, currentAt start_dt intv j ≤ end_dt ∧ step_ok intv (currentAt start_dt intv j)

/-- Normal termination of the loop: some reached iterate fails the
`current <= end_dt` guard. -/
def loop_exits_normally (start_dt end_dt intv : Int) : Prop :=
  ∃ k, loop_reaches start_dt end_dt intv k ∧ ¬ currentAt start_dt intv k ≤ end_dt

/-- Abnormal termination of the loop: some reached iterate passes the guard
but its increment leaves the datetime range, raising `OverflowError`. -/
def loop_raises (start_dt end_dt intv : Int) : Prop :=
  ∃ k, loop_reaches start_dt end_dt intv k ∧ currentAt start_dt intv k ≤ end_dt ∧
    ¬ step_ok intv (currentAt start_dt intv k)

/-- The loop's execution is finite: it exits normally or raises
`OverflowError`. Its negation is true divergence. -/
def loop_finishes (start_dt end_dt intv : Int) : Prop :=
  loop_exits_normally start_dt end_dt intv ∨ loop_raises start_dt end_dt intv

/-- The number of labels the emission loop produces from `current` with a
positive interval: one per multiple of `intv` in `[current, end_dt]`. -/
def slot_count (end_dt intv current : Nat) : Nat :=
  if current ≤ end_dt then (end_dt - current) / intv + 1 else 0

theorem emit_slots_eq (start_dt intv end_dt : Nat) (hi : 1 ≤ intv) :
    ∀ fuel current, end_dt + 2 ≤ fuel + current →
      emit_slots start_dt intv end_dt fuel current =
        (List.range (slot_count end_dt intv current)).map
          (fun k => format_slot start_dt (current + k * intv)) := by
  intro fuel
  induction fuel with
  | zero =>
      intro current h
      have hc : ¬ current ≤ end_dt := by omega
      simp [emit_slots, slot_count, hc]
  | succ fuel ih =>
      intro current h
      by_cases hc : current ≤ end_dt
      · have hn : slot_count end_dt intv (current + intv) = (end_dt - current) / intv := by
          by_cases h2 : current + intv ≤ end_dt
          · have hle : intv ≤ end_dt - current := by omega
            have hnum : end_dt - (current + intv) = end_dt - current - intv := by omega
            rw [slot_count, if_pos h2, hnum, Nat.div_eq_sub_div (by omega) hle]
          · have hlt : end_dt - current < intv := by omega
            rw [slot_count, if_neg h2, Nat.div_eq_of_lt hlt]
        rw [slot_count, if_pos hc]
        simp only [emit_slots, if_pos hc]
        rw [ih (current + intv) (by omega), hn, List.range_succ_eq_map, List.map_cons,
          List.map_map]
        simp only [Nat.zero_mul, Nat.add_zero]
        congr 1
        apply List.map_congr_left
        intro k _
        simp only [Function.comp_apply, Nat.succ_eq_add_one]
        congr 1
        ring
      · simp [emit_slots, slot_count, hc]

theorem axis_bounds_le (st et : String) (a b : Nat)
    (h : axis_bounds st et = some (a, b)) : a ≤ b := by
  simp only [axis_bounds] at h
  split at h
  case h_2 => exact absurd h (by simp)
  next sh sm _ =>
    split at h
    case h_2 => exact absurd h (by simp)
    next eh em1 _ =>
      split at h
      case isFalse => exact absurd h (by simp)
      next hval =>
        obtain ⟨h1, h2, h3, h4⟩ := hval
        split at h
        next hcond =>
          simp only [Option.some.injEq, Prod.mk.injEq] at h
          omega
        next hcond =>
          rw [not_or] at hcond
          obtain ⟨hc1, _⟩ := hcond
          simp only [Option.some.injEq, Prod.mk.injEq] at h
          omega

theorem render_rows_length (ts : List String) (ct cs : Option String)
    (l : List (List String × GroupData)) :
    (render_rows ts ct cs l).length = l.length := by
  induction l generalizing ct cs with
  | nil => rfl
  | cons x rest ih =>
      cases x
      simp [render_rows, ih]

/-- Claim C1: the spec says `generate("0530", "2400", 30)` ends with slot
`"2400"` and has 38 slots (05:30 to 24:00 inclusive in 30-minute steps).
The code instead special-cases the end to 23:59 AND adds a day, so the axis
runs to 23:59 of the following day: it produces 85 slots, passes through
`"2400"` at index 37, and ends with `"2330"` — contradicting the code's own
comment that `"2400"` is handled as midnight (00:00 of the next day). -/
theorem C1_full_day_axis_code_result :
    ((generate_time_slots "0530" "2400" 30).getD []).length = 85 ∧
    ((generate_time_slots "0530" "2400" 30).getD []).getLastD "" = "2330" ∧
    ((generate_time_slots "0530" "2400" 30).getD []).getD 37 "" = "2400" ∧
    (generate_time_slots "0530" "2400" 30).isSome = true := by
  decide

/-- Claim C2 counterexample: `generate("2300", "0100", 60)` does NOT return
`["2300", "0000", "0100"]` — the midnight slot is rewritten. -/
theorem C2_counterexample :
    generate_time_slots "2300" "0100" 60 ≠ some ["2300", "0000", "0100"] := by
  decide

/-- Claim C2 (amended): `generate("2300", "0100", 60)` returns
`["2300", "2400", "0100"]`; the mid-sequence midnight instant is rewritten
to `"2400"` because it is strictly later than the start instant. -/
theorem C2_rollover_actual :
    generate_time_slots "2300" "0100" 60 = some ["2300", "2400", "0100"] := by
  decide

/-- Claim C6: building the table fails (the `raise ValueError` path) if and
only if the time-slot sequence is empty; in every case — error included —
the instance state (store and time axis) is left unchanged. -/
theorem C6_precondition (s : BState) :
    ((build_schedule_structure s).1.isOk = true ↔ s.time_slots ≠ []) ∧
    (build_schedule_structure s).2 = s := by
  refine ⟨?_, rfl⟩
  by_cases h : s.time_slots = [] <;>
    simp [build_schedule_structure, h, Except.isOk, Except.toBool]

/-- Claim C8: a second `add_group` call with a name already registered is a
no-op on the state, whatever activities or locations it supplies — so it
never overwrites the group's hierarchy, activities, or locations, and in
particular preserves activities added between two `add_group` calls. -/
theorem C8_add_group_noop (s : BState) (group_name : String)
    (acts : Option (List (String × String))) (locs : Option (List String))
    (h : List.lookup group_name s.groups ≠ none) :
    add_group s group_name acts locs = s := by
  simp [add_group, h]

/-- Witness for C8: after `add_group "G"` followed by
`add_activity "G" "0900" "X"`, a second `add_group "G"` leaves the state —
including the activity added in between — untouched. -/
theorem C8_add_group_noop_witness :
    List.lookup "G"
        (add_activity (add_group initState "G" none none) "G" "0900" "X" "").groups ≠
      none ∧
    add_group (add_activity (add_group initState "G" none none) "G" "0900" "X" "")
        "G" none none =
      add_activity (add_group initState "G" none none) "G" "0900" "X" "" :=
  ⟨by decide, C8_add_group_noop _ _ _ _ (by decide)⟩

/-- Claim C9: building the table is a pure read — the call returns the state
unchanged, and a second build from the state left by the first returns an
identical table. -/
theorem C9_pure_read (s : BState) :
    (build_schedule_structure s).2 = s ∧
    (build_schedule_structure ((build_schedule_structure s).2)).1 =
      (build_schedule_structure s).1 :=
  ⟨rfl, rfl⟩

/-- Claim C3 counterexample: `"A - B"` and `"A - B "` are distinct names,
yet whitespace stripping gives them the same parse, hence the same sort
key; with both registered the store holds two groups but the built table
has only one data row (three rows total including header and spacer). -/
theorem C3_counterexample :
    ("A - B" : String) ≠ "A - B " ∧
    parse_hierarchy "A - B" = parse_hierarchy "A - B " ∧
    (add_group (add_group (set_time_period initState "0900" "0930" 30)
        "A - B" none none) "A - B " none none).groups.length = 2 ∧
    (((build_schedule_structure
        (add_group (add_group (set_time_period initState "0900" "0930" 30)
          "A - B" none none) "A - B " none none)).1.toOption.getD []).length) = 3 := by
  decide

/-- Claim C3 (amended): the built table has one data row per distinct sort
key — the size of the `hierarchy_groups` dict — rather than one per
registered group; distinct names whose parts differ only in surrounding
whitespace collapse to the same key, and then the later registration
overwrites the earlier one's row. -/
theorem C3_rows_per_distinct_key (s : BState) (h : s.time_slots ≠ []) :
    ∃ t, (build_schedule_structure s).1 = Except.ok t ∧
      t.length = 2 + (hg_fold [] s.groups).length := by
  refine ⟨(["", "", ""] ++ s.time_slots) ::
      (["", "", ""] ++ List.replicate s.time_slots.length "") ::
      render_rows s.time_slots none none (sorted_groups s.groups), ?_, ?_⟩
  · simp [build_schedule_structure, h]
  · simp only [List.length_cons, render_rows_length, sorted_groups,
      List.length_insertionSort]
    omega

/-- Witness for C3 (amended): on the two-group collision state the table has
2 + 1 rows. -/
theorem C3_rows_per_distinct_key_witness :
    (add_group (add_group (set_time_period initState "0900" "0930" 30)
        "A - B" none none) "A - B " none none).time_slots ≠ [] ∧
    ∃ t, (build_schedule_structure
        (add_group (add_group (set_time_period initState "0900" "0930" 30)
          "A - B" none none) "A - B " none none)).1 = Except.ok t ∧
      t.length = 2 +
        (hg_fold []
          (add_group (add_group (set_time_period initState "0900" "0930" 30)
            "A - B" none none) "A - B " none none).groups).length :=
  ⟨by decide, C3_rows_per_distinct_key _ (by decide)⟩

/-- Claim C7: after two adjacent depth-3 groups in sort order sharing top and
second labels, the second one's row starts with two empty cells; the group
sorted immediately after them, with a different top-level label, renders
that label in column 0. (The location annotation only ever touches column
2, so the group records are arbitrary.) -/
theorem C7_span_collapse (ts : List String) (ct cs : Option String)
    (a b c1 c2 d e f : String) (g1 g2 g3 : GroupData)
    (rest : List (List String × GroupData)) (hd : d ≠ a) :
    ∃ r1 r2 r3 more,
      render_rows ts ct cs (([a, b, c1], g1) :: ([a, b, c2], g2) :: ([d, e, f], g3) :: rest)
        = r1 :: r2 :: r3 :: more ∧
      r2.take 2 = ["", ""] ∧ r3.getD 0 "" = d := by
  refine ⟨_, _, _, _, rfl, ?_, ?_⟩ <;>
    simp [render_rows, row_start, Ne.symm hd]

theorem pad2_ne_24 : ∀ h < 24, pad2 h ≠ "24" := by decide

theorem pad2_len : ∀ h < 100, (pad2 h).data.length = 2 := by decide

theorem hhmm_ne_2400 (t : Nat) (ht : t < 1440) :
    pad2 (t / 60) ++ pad2 (t % 60) ≠ "2400" := by
  intro hEq
  have hh : t / 60 < 24 := by omega
  apply pad2_ne_24 (t / 60) hh
  have hdata : (pad2 (t / 60)).data ++ (pad2 (t % 60)).data = ['2', '4', '0', '0'] := by
    have h2 := congrArg String.data hEq
    simpa using h2
  have hlen : (pad2 (t / 60)).data.length = 2 := pad2_len _ (by omega)
  have hfirst : (pad2 (t / 60)).data = ['2', '4'] := by
    have h24 : (['2', '4', '0', '0'] : List Char) = ['2', '4'] ++ ['0', '0'] := rfl
    exact List.append_inj_left (hdata.trans h24) (by simp [hlen])
  exact String.ext hfirst

theorem getD_map_range (f : Nat → String) (n j : Nat) (hj : j < n) :
    ((List.range n).map f).getD j "" = f j := by
  rw [List.getD_eq_getElem?_getD, List.getElem?_map, List.getElem?_range hj]
  rfl

/-- With a positive interval, `generate_time_slots` is the closed form: one
label per multiple of the interval between the start and (rolled-over) end
instants, inclusive. -/
theorem generate_eq_map (st et : String) (a b intv : Nat)
    (hb : axis_bounds st et = some (a, b)) (hi : 1 ≤ intv) :
    generate_time_slots st et intv =
      some ((List.range ((b - a) / intv + 1)).map
        (fun k => format_slot a (a + k * intv))) := by
  have hab := axis_bounds_le st et a b hb
  simp only [generate_time_slots, hb]
  rw [emit_slots_eq a intv b hi (b + 2) a (by omega), slot_count, if_pos hab]

theorem format_slot_midnight (s c : Nat) (hmod : c % 1440 = 0) (hgt : s < c) :
    format_slot s c = "2400" := by
  have h00 : pad2 (0 / 60) ++ pad2 (0 % 60) = "0000" := by decide
  simp only [format_slot, hmod, h00]
  simp [hgt]

theorem format_slot_self (s : Nat) :
    format_slot s s = pad2 (s % 1440 / 60) ++ pad2 (s % 1440 % 60) := by
  simp [format_slot]

/-- Claim C4: in every generated axis, an instant that is an exact multiple
of a day — i.e. lands on 00:00 — is emitted as `"2400"` whenever it comes
at a positive step index (hence is strictly later than the start instant),
while the first emitted label is never the rewritten `"2400"`, even when
the start instant itself is midnight. -/
theorem C4_midnight_rewrite (st et : String) (a b intv : Nat)
    (hb : axis_bounds st et = some (a, b)) (hi : 1 ≤ intv)
    (l : List String) (hl : generate_time_slots st et intv = some l) :
    (∀ j, 0 < j → j < l.length → (a + j * intv) % 1440 = 0 →
      l.getD j "" = "2400") ∧
    l.getD 0 "" ≠ "2400" := by
  rw [generate_eq_map st et a b intv hb hi] at hl
  obtain rfl := Option.some.inj hl
  constructor
  · intro j hj0 hjlen hmod
    have hjn : j < (b - a) / intv + 1 := by simpa using hjlen
    rw [getD_map_range _ _ _ hjn]
    exact format_slot_midnight a (a + j * intv) hmod
      (Nat.lt_add_of_pos_right (Nat.mul_pos hj0 hi))
  · rw [getD_map_range _ _ _ (Nat.succ_pos _)]
    simp only [Nat.zero_mul, Nat.add_zero, format_slot_self]
    exact hhmm_ne_2400 (a % 1440) (Nat.mod_lt _ (by omega))

/-- Witness for C4: the overnight axis `generate("2300", "0100", 60)`;
index 1 is the rolled-over midnight instant `1440` and carries `"2400"`,
and the first label is not `"2400"`. -/
theorem C4_midnight_rewrite_witness :
    axis_bounds "2300" "0100" = some (1380, 1500) ∧
    generate_time_slots "2300" "0100" 60 = some ["2300", "2400", "0100"] ∧
    ((∀ j, 0 < j → j < (["2300", "2400", "0100"] : List String).length →
        (1380 + j * 60) % 1440 = 0 →
        (["2300", "2400", "0100"] : List String).getD j "" = "2400") ∧
      (["2300", "2400", "0100"] : List String).getD 0 "" ≠ "2400") :=
  ⟨by decide, by decide,
    C4_midnight_rewrite "2300" "0100" 1380 1500 60 (by decide) (by decide) _ (by decide)⟩

/-- Witness for C7: a concrete instance with top labels "A" and "D". -/
theorem C7_span_collapse_witness :
    ("D" : String) ≠ "A" ∧
    ∃ r1 r2 r3 more,
      render_rows [] none none
          ((["A", "B", "C1"], (⟨[], "", [], []⟩ : GroupData)) ::
            (["A", "B", "C2"], (⟨[], "", [], []⟩ : GroupData)) ::
            (["D", "E", "F"], (⟨[], "", [], []⟩ : GroupData)) :: [])
        = r1 :: r2 :: r3 :: more ∧
      r2.take 2 = ["", ""] ∧ r3.getD 0 "" = "D" :=
  ⟨by decide, C7_span_collapse [] none none "A" "B" "C1" "C2" "D" "E" "F" _ _ _ [] (by decide)⟩

theorem update_group_mem (l : List (String × GroupData)) (k : String)
    (f : GroupData → GroupData) (p : String × GroupData)
    (hp : p ∈ update_group l k f) :
    p ∈ l ∨ ∃ q ∈ l, p = (q.1, f q.2) := by
  induction l with
  | nil => simp [update_group] at hp
  | cons x rest ih =>
      obtain ⟨k1, v⟩ := x
      simp only [update_group] at hp
      by_cases hk : k1 = k
      · rw [if_pos hk] at hp
        rcases List.mem_cons.mp hp with h1 | h1
        · exact Or.inr ⟨(k1, v), List.mem_cons_self _ _, by simp [h1]⟩
        · exact Or.inl (List.mem_cons_of_mem _ h1)
      · rw [if_neg hk] at hp
        rcases List.mem_cons.mp hp with h1 | h1
        · exact Or.inl (by simp [h1])
        · rcases ih h1 with h2 | ⟨q, hq, h3⟩
          · exact Or.inl (List.mem_cons_of_mem _ h2)
          · exact Or.inr ⟨q, List.mem_cons_of_mem _ hq, h3⟩

theorem locations_nodup_add_group (s : BState) (n : String)
    (a : Option (List (String × String))) (l : Option (List String))
    (hs : locations_nodup s) (hl : (l.getD []).Nodup) :
    locations_nodup (add_group s n a l) := by
  intro p hp
  simp only [add_group] at hp
  split at hp
  · rcases List.mem_append.mp hp with h1 | h1
    · exact hs p h1
    · rw [List.mem_singleton.mp h1]
      exact hl
  · exact hs p hp

theorem locations_nodup_add_activity (s : BState) (n t a loc : String)
    (hs : locations_nodup s) :
    locations_nodup (add_activity s n t a loc) := by
  have hs1 : locations_nodup
      (if List.lookup n s.groups = none then add_group s n none none else s) := by
    split
    · exact locations_nodup_add_group s n none none hs (by simp)
    · exact hs
  intro p hp
  simp only [add_activity] at hp
  rcases update_group_mem _ _ _ p hp with h1 | ⟨q, hq, h2⟩
  · exact hs1 p h1
  · have hq2 := hs1 q hq
    rw [h2]
    dsimp only
    split
    · next hcond =>
        simp [List.nodup_append, hq2, hcond.2]
    · exact hq2

theorem locations_nodup_set_time_period (s : BState) (st et : String) (i : Nat)
    (hs : locations_nodup s) :
    locations_nodup (set_time_period s st et i) := by
  unfold set_time_period
  split
  · exact fun p hp => hs p hp
  · exact hs

theorem runOps_nodup (ops : List Op) : ∀ s : BState, locations_nodup s →
    (∀ op ∈ ops, op_locs_nodup op = true) → locations_nodup (runOps s ops) := by
  induction ops with
  | nil => exact fun s hs _ => hs
  | cons op rest ih =>
      intro s hs hops
      rw [runOps, List.foldl_cons]
      apply ih (applyOp s op) ?_ (fun o ho => hops o (List.mem_cons_of_mem _ ho))
      cases op with
      | addGroup n a l =>
          have hop := hops _ (List.mem_cons_self _ _)
          cases l with
          | none => exact locations_nodup_add_group s n a none hs (by simp)
          | some ll =>
              simp only [op_locs_nodup, decide_eq_true_eq] at hop
              exact locations_nodup_add_group s n a (some ll) hs (by simpa using hop)
      | addActivity n t a loc => exact locations_nodup_add_activity s n t a loc hs
      | setTimePeriod st et i => exact locations_nodup_set_time_period s st et i hs

/-- Claim C5 counterexample: `add_group` stores the caller-supplied location
list verbatim, so a single `addGroup("G", locations=["x", "x"])` call
produces a reachable state whose group has a duplicated location entry. -/
theorem C5_counterexample :
    ¬ locations_nodup (runOps initState [Op.addGroup "G" none (some ["x", "x"])]) := by
  unfold locations_nodup
  decide

/-- Claim C5 (amended): in every state reachable by operations whose
`addGroup` calls supply duplicate-free location lists, every group's
location list is duplicate-free — `addActivity` never introduces a
duplicate; only a duplicated list handed directly to `addGroup` (stored
verbatim) can violate the invariant. -/
theorem C5_locations_nodup (ops : List Op)
    (h : ∀ op ∈ ops, op_locs_nodup op = true) :
    locations_nodup (runOps initState ops) :=
  runOps_nodup ops initState (fun p hp => by simp [initState] at hp) h

/-- Witness for C5: a trace that registers a group with two distinct
locations and then adds an activity repeating one of them. -/
theorem C5_locations_nodup_witness :
    (∀ op ∈ [Op.addGroup "G" none (some ["x", "y"]),
        Op.addActivity "G" "0900" "act" "x"], op_locs_nodup op = true) ∧
    locations_nodup (runOps initState
      [Op.addGroup "G" none (some ["x", "y"]),
        Op.addActivity "G" "0900" "act" "x"]) :=
  ⟨by decide, C5_locations_nodup _ (by decide)⟩

theorem axis_bounds_range (st et : String) (a b : Nat)
    (h : axis_bounds st et = some (a, b)) :
    a ≤ b ∧ a ≤ 1439 ∧ b ≤ 2879 := by
  simp only [axis_bounds] at h
  split at h
  case h_2 => exact absurd h (by simp)
  next sh sm _ =>
    split at h
    case h_2 => exact absurd h (by simp)
    next eh em1 _ =>
      split at h
      case isFalse => exact absurd h (by simp)
      next hval =>
        obtain ⟨h1, h2, h3, h4⟩ := hval
        split at h
        next hcond =>
          simp only [Option.some.injEq, Prod.mk.injEq] at h
          omega
        next hcond =>
          rw [not_or] at hcond
          obtain ⟨hc1, _⟩ := hcond
          simp only [Option.some.injEq, Prod.mk.injEq] at h
          omega

/-- If the loop neither exits normally nor raises, then every iteration is
completed: the guard holds and the increment stays in range forever. -/
theorem loop_stuck_invariant (a b intv : Int)
    (hnf : ¬ loop_finishes a b intv) :
    ∀ k, loop_reaches a b intv k ∧ currentAt a intv k ≤ b ∧
      step_ok intv (currentAt a intv k) := by
  intro k
  induction k with
  | zero =>
      have hr : loop_reaches a b intv 0 := fun j hj => absurd hj (Nat.not_lt_zero j)
      have hg : currentAt a intv 0 ≤ b := by
        by_contra hgg
        exact hnf (Or.inl ⟨0, hr, hgg⟩)
      have hs : step_ok intv (currentAt a intv 0) := by
        by_contra hss
        exact hnf (Or.inr ⟨0, hr, hg, hss⟩)
      exact ⟨hr, hg, hs⟩
  | succ k ih =>
      obtain ⟨hr, hg, hs⟩ := ih
      have hr1 : loop_reaches a b intv (k + 1) := by
        intro j hj
        rcases Nat.lt_succ_iff_lt_or_eq.mp hj with h1 | h1
        · exact hr j h1
        · rw [h1]
          exact ⟨hg, hs⟩
      have hg1 : currentAt a intv (k + 1) ≤ b := by
        by_contra hgg
        exact hnf (Or.inl ⟨k + 1, hr1, hgg⟩)
      have hs1 : step_ok intv (currentAt a intv (k + 1)) := by
        by_contra hss
        exact hnf (Or.inr ⟨k + 1, hr1, hg1, hss⟩)
      exact ⟨hr1, hg1, hs1⟩

/-- Claim C10 counterexample: the original claim says the loop never
terminates for any interval `≤ 0`, but at the parsed bounds of
`("0530", "2400")` with interval `-1` the loop's execution is finite:
after 1051371690 completed iterations the decrement passes `datetime.min`
and Python raises `OverflowError`. -/
theorem C10_counterexample :
    axis_bounds "0530" "2400" = some (330, 2879) ∧
    (-1 : Int) ≤ 0 ∧ loop_finishes 330 2879 (-1) := by
  refine ⟨by decide, by norm_num, Or.inr ⟨1051371690, ?_, ?_, ?_⟩⟩
  · intro j hj
    simp only [currentAt, step_ok, DT_MIN, DT_MAX]
    omega
  · simp only [currentAt]
    omega
  · simp only [currentAt, step_ok, DT_MIN, DT_MAX]
    omega

/-- Claim C10 (amended): once `generate_time_slots` reaches its emission
loop, the loop's execution is finite for every interval of at least one
minute (exiting normally, or by `OverflowError` when a step would pass
`datetime.max`); the necessity boundary of the positive-interval
precondition is exactly interval 0 — there the loop truly never terminates
— while for every negative interval the loop terminates, but only
abnormally: the guard never fails and the running instant eventually
underflows `datetime.min`, raising `OverflowError`. -/
theorem C10_loop_termination (st et : String) (a b : Nat)
    (h : axis_bounds st et = some (a, b)) (intv : Int) :
    (1 ≤ intv → loop_finishes a b intv) ∧
    (intv = 0 → ¬ loop_finishes a b intv) ∧
    (intv < 0 → loop_raises a b intv ∧ ¬ loop_exits_normally a b intv) := by
  obtain ⟨hab, ha1439, hb2879⟩ := axis_bounds_range st et a b h
  have hab' : (a : Int) ≤ (b : Int) := by exact_mod_cast hab
  have ha1439' : (a : Int) ≤ 1439 := by exact_mod_cast ha1439
  have haDT : (a : Int) ≤ DT_MAX := by
    simp only [DT_MAX]
    omega
  have hstep_eq : ∀ j : Nat, currentAt a intv j + intv = currentAt a intv (j + 1) := by
    intro j
    unfold currentAt
    push_cast
    ring
  refine ⟨?_, ?_, ?_⟩
  · intro hi
    by_contra hnf
    have hg := (loop_stuck_invariant a b intv hnf (b - a + 1)).2.1
    have h2 : (((b - a + 1 : Nat)) : Int) ≤ (((b - a + 1 : Nat)) : Int) * intv :=
      le_mul_of_one_le_right (by positivity) hi
    have hcast : (((b - a + 1 : Nat)) : Int) = (b : Int) - a + 1 := by omega
    unfold currentAt at hg
    rw [hcast] at hg h2
    linarith
  · intro h0
    rw [h0]
    rintro (⟨k, _, hg⟩ | ⟨k, _, hg, hs⟩)
    · apply hg
      unfold currentAt
      simp only [mul_zero, add_zero]
      exact hab'
    · apply hs
      unfold step_ok currentAt
      simp only [mul_zero, add_zero]
      constructor
      · simp only [DT_MIN]
        omega
      · omega
  · intro hneg
    have hneg1 : intv ≤ -1 := by omega
    constructor
    · have hex : ∃ j : Nat, currentAt a intv (j + 1) < DT_MIN := by
        refine ⟨((a : Int) - DT_MIN).toNat, ?_⟩
        unfold currentAt
        have h1 : ((a : Int) - DT_MIN) ≤ (((((a : Int) - DT_MIN).toNat : Nat)) : Int) :=
          Int.self_le_toNat _
        have h2 : (((((a : Int) - DT_MIN).toNat + 1 : Nat)) : Int) * intv ≤
            -(((((a : Int) - DT_MIN).toNat + 1 : Nat)) : Int) := by
          calc (((((a : Int) - DT_MIN).toNat + 1 : Nat)) : Int) * intv
              ≤ (((((a : Int) - DT_MIN).toNat + 1 : Nat)) : Int) * (-1) :=
                mul_le_mul_of_nonneg_left hneg1 (by positivity)
            _ = -(((((a : Int) - DT_MIN).toNat + 1 : Nat)) : Int) := by ring
        push_cast at h2 ⊢
        linarith
      refine ⟨Nat.find hex, ?_, ?_, ?_⟩
      · intro j hj
        have hmin := Nat.find_min hex hj
        have hjp : ((j : Nat) : Int) * intv ≤ 0 :=
          mul_nonpos_of_nonneg_of_nonpos (Int.natCast_nonneg j) (le_of_lt hneg)
        have hj1 : (((j + 1 : Nat)) : Int) * intv ≤ 0 :=
          mul_nonpos_of_nonneg_of_nonpos (by positivity) (le_of_lt hneg)
        refine ⟨?_, ?_, ?_⟩
        · unfold currentAt
          linarith
        · rw [hstep_eq j]
          exact not_lt.mp hmin
        · rw [hstep_eq j]
          unfold currentAt
          linarith
      · unfold currentAt
        have hkp : ((Nat.find hex : Nat) : Int) * intv ≤ 0 :=
          mul_nonpos_of_nonneg_of_nonpos (Int.natCast_nonneg _) (le_of_lt hneg)
        linarith
      · have hspec := Nat.find_spec hex
        rintro ⟨hlo, _⟩
        rw [hstep_eq] at hlo
        exact absurd hspec (not_lt.mpr hlo)
    · rintro ⟨k, _, hg⟩
      apply hg
      unfold currentAt
      have hkp : ((k : Nat) : Int) * intv ≤ 0 :=
        mul_nonpos_of_nonneg_of_nonpos (Int.natCast_nonneg k) (le_of_lt hneg)
      linarith

/-- Witness for C10 (amended): the parsed bounds of `("0530", "2400")`; the
loop finishes for the 30-minute interval, diverges for interval 0, and for
interval `-1` raises `OverflowError` without ever failing the guard. -/
theorem C10_loop_termination_witness :
    axis_bounds "0530" "2400" = some (330, 2879) ∧
    loop_finishes 330 2879 30 ∧ ¬ loop_finishes 330 2879 0 ∧
    (loop_raises 330 2879 (-1) ∧ ¬ loop_exits_normally 330 2879 (-1)) :=
  ⟨by decide,
    (C10_loop_termination "0530" "2400" 330 2879 (by decide) 30).1 (by norm_num),
    (C10_loop_termination "0530" "2400" 330 2879 (by decide) 0).2.1 rfl,
    (C10_loop_termination "0530" "2400" 330 2879 (by decide) (-1)).2.2 (by norm_num)⟩

end ScheduleBuilder
